import Mathlib

/-!
Shallow embedding of the `fine` finite-state-machine engine (package
`interrato.dev/fine`, file `fine.go`: the version with the `Metadata`
struct and a per-FSM mutex, the one the specification describes).

Modelling choices:
* Go `interface{}` action values become the inductive `Fine.Action`,
  with one constructor per Go type that either of the two dispatch
  switches (`FSM.do` and `FSM.doLifecycle`) names, plus `aother` for
  every other type.  User-supplied function bodies are opaque: each
  carries a numeric identifier, and running one is recorded in an
  observable trace (`Fine.Eff`).  A `func(...interface{}) string`
  additionally carries the pure function from the received arguments to
  the returned state name; a `func() string` carries the name it
  returns.
* Go maps become functions into `Option` (a key absent from the map is
  `none`; a key present with a `nil` interface value is `some .anil`,
  matching the `v, ok := m[k]` distinction the source relies on).
* Argument values (`interface{}` varargs) are opaque and modelled by
  `Nat`.
* Panics become `none` of an `Option`-valued result.
* Errors are the inductive `Fine.Err`, one constructor per `errors.New`
  / `fmt.Errorf` site; the formatted message text is not modelled.
* The subscriber registry (Go `map[int32]func(string)`) becomes an
  association list from key to an opaque callback identifier; the
  `int32` counter `lastSubKey` is modelled as an integer reduced to the
  signed 32-bit range by `wrap32`, because `atomic.AddInt32` wraps
  silently.
* Execution is sequential; callbacks and hooks are opaque and do not
  re-enter the machine (reentrancy and data races are out of scope of
  the claims settled here).  Maps are modelled with value semantics, so
  aliasing of one Go `Transitions` map under two state names is not
  represented.
-/

namespace Fine

/-- Opaque model of a Go `interface{}` argument value. -/
abbrev Arg := Nat

/-- Metadata holds the information about one transition, exactly the four
fields of the Go struct `Metadata`. -/
structure Metadata where
  From : String
  To : String
  Event : String
  Args : List Arg
deriving DecidableEq, Repr

/-- An action value: one constructor per Go dynamic type handled by the
dispatch switches in `FSM.do` and `FSM.doLifecycle`, plus `aother` for
any other type.  Constructors carrying a `Nat` identify the opaque user
function stored there. -/
inductive Action where
  /-- A key stored with the `nil` interface value (Go `case nil:` also
  fires for an absent key, which this model renders as a `none`
  lookup). -/
  | anil
  /-- Go `string`: a constant target state name. -/
  | aconst (target : String)
  /-- Go `func()`. -/
  | afn (id : Nat)
  /-- Go `func(...interface{})`. -/
  | afnArgs (id : Nat)
  /-- Go `func() string`, returning `ret`. -/
  | afnRet (id : Nat) (ret : String)
  /-- Go `func(...interface{}) string`, returning `f args`. -/
  | afnArgsRet (id : Nat) (f : List Arg → String)
  /-- Go `func(*FSM)` (lifecycle-only shape). -/
  | ahookFSM (id : Nat)
  /-- Go `func(Metadata)` (lifecycle-only shape). -/
  | ahookMeta (id : Nat)
  /-- Go `func(*FSM, Metadata)` (lifecycle-only shape). -/
  | ahookFSMMeta (id : Nat)
  /-- Any Go type outside the closed set recognised by either switch. -/
  | aother (tag : Nat)

/-- Go `Transitions`: a map from event name to action value; `none`
models an absent key, and a key stored with the `nil` interface value
is `some .anil`, keeping the `v, ok := m[k]` presence distinction the
source relies on. -/
abbrev Transitions := String → Option Action

/-- Go `States`: a map from state name to `Transitions`. -/
abbrev States := String → Option Transitions

/-- The FSM structure: current state name, state table, last issued
subscription key (an `int32` in Go) and the subscriber registry
(subscription key to opaque callback identifier). -/
structure FSM where
  current : String
  states : States
  lastSubKey : Int
  subscribers : List (Int × Nat)

/-- Observable effects of running the engine: execution of a
non-lifecycle user action (`run`), execution of a lifecycle hook
(`hook`, recording the event name, the hook's identifier and the
`Metadata` value the engine dispatched it with), the write of the
current-state field (`swap`), and the invocation of a subscriber
callback (`notify`). -/
inductive Eff where
  | run (id : Nat) (args : List Arg)
  | hook (event : String) (id : Nat) (md : Metadata)
  | swap (fromState toState : String)
  | notify (key : Int) (cb : Nat) (state : String)
deriving DecidableEq, Repr

/-- Recoverable errors, one constructor per error-returning site of the
source. -/
inductive Err where
  /-- `"calling a lifecycle action manually is illegal"` in `FSM.Do`. -/
  | lifecycleIllegal
  /-- `"%q is not a valid action for the current state %q"` in `FSM.Do`. -/
  | invalidAction (action cur : String)
  /-- `"a state with name %q already exists"` in `FSM.Add`. -/
  | duplicateState (s : String)
deriving DecidableEq, Repr

/-- The double map lookup `m.states[m.current][action]` of the source:
indexing a Go map of maps with an absent state yields the zero-value
`nil` map, whose own lookup reports the key absent. -/
def lookupA (m : FSM) (action : String) : Option Action :=
  match m.states m.current with
  | some t => t action
  | none => none

/-- The method `FSM.do` (non-lifecycle dispatch): runs the action stored
for `action` in the current state's table and yields the candidate next
state together with the trace of user code it executed; `none` models
the `panic` of the `default:` arm.  A `none` lookup behaves as Go
`case nil:` does. -/
def doAction (m : FSM) (action : String) (args : List Arg) :
    Option (String × List Eff) :=
  match lookupA m action with
  | none => some (m.current, [])
  | some .anil => some (m.current, [])
  | some (.aconst next) => some (next, [])
  | some (.afn id) => some (m.current, [.run id []])
  | some (.afnArgs id) => some (m.current, [.run id args])
  | some (.afnRet id ret) => some (ret, [.run id []])
  | some (.afnArgsRet id f) => some (f args, [.run id args])
  | some (.ahookFSM _) => none
  | some (.ahookMeta _) => none
  | some (.ahookFSMMeta _) => none
  | some (.aother _) => none

/-- The method `FSM.doLifecycle`: runs the lifecycle value stored for
`action` ( `"@enter"` or `"@exit"` ) in the current state's table, with
`metadata` available to the shapes that receive it; yields the trace,
or `none` for the `panic` of the `default:` arm.  A `none` lookup
behaves as Go `case nil:` does. -/
def doLifecycle (m : FSM) (action : String) (metadata : Metadata) :
    Option (List Eff) :=
  match lookupA m action with
  | none => some []
  | some .anil => some []
  | some (.afn id) => some [.hook action id metadata]
  | some (.ahookFSM id) => some [.hook action id metadata]
  | some (.ahookMeta id) => some [.hook action id metadata]
  | some (.ahookFSMMeta id) => some [.hook action id metadata]
  | some (.aconst _) => none
  | some (.afnArgs _) => none
  | some (.afnRet _ _) => none
  | some (.afnArgsRet _ _) => none
  | some (.aother _) => none

/-- What one call of the method `FSM.Do` produces: the machine
afterwards, the trace of observable effects, the returned state string
and the returned error (`none` for a `nil` error). -/
structure DoResult where
  fsm : FSM
  trace : List Eff
  ret : String
  err : Option Err

/-- The method `FSM.Do`: rejects direct lifecycle invocation, rejects an
event absent from the current state's table (both with the returned
string `""`), otherwise dispatches via `doAction` and, when the
candidate differs from the current state, performs the full transition:
`@exit` hook with the freshly built `Metadata`, current-state swap,
notification of every subscriber with the new state name, `@enter`
hook with the same `Metadata`.  `none` models a propagated `panic`. -/
def Do (m : FSM) (action : String) (args : List Arg) : Option DoResult :=
  if action = "@enter" ∨ action = "@exit" then
    some ⟨m, [], "", some .lifecycleIllegal⟩
  else
    match lookupA m action with
    | none => some ⟨m, [], "", some (.invalidAction action m.current)⟩
    | some _ =>
      match doAction m action args with
      | none => none
      | some (newState, tr1) =>
        if newState ≠ m.current then
          let metadata : Metadata :=
            ⟨m.current, newState, action, args⟩
          match doLifecycle m "@exit" metadata with
          | none => none
          | some tr2 =>
            let m' : FSM := { m with current := newState }
            let tr3 : List Eff :=
              m'.subscribers.map fun p => .notify p.1 p.2 newState
            match doLifecycle m' "@enter" metadata with
            | none => none
            | some tr4 =>
              some ⟨m', tr1 ++ tr2 ++ [.swap m.current newState] ++ tr3
                        ++ tr4, m'.current, none⟩
        else
          some ⟨m, tr1, m.current, none⟩

/-- The constructor `Machine`: `none` models the `panic` both when the
initial state is absent from the table and when the initial `@enter`
dispatch panics; otherwise yields the new machine and the trace of the
one `@enter` lifecycle dispatch run with the degenerate
`Metadata{To: m.current}`. -/
def Machine (initialState : String) (states : States) :
    Option (FSM × List Eff) :=
  match states initialState with
  | none => none
  | some _ =>
    let m : FSM :=
      { current := initialState, states := states
        lastSubKey := 0, subscribers := [] }
    match doLifecycle m "@enter" ⟨"", m.current, "", []⟩ with
    | none => none
    | some tr => some (m, tr)

/-- The method `FSM.State`. -/
def State (m : FSM) : String :=
  m.current

/-- The method `FSM.Exists` (named `existsState` here because `Exists`
would clash with the Lean quantifier). -/
def existsState (m : FSM) (state : String) : Bool :=
  (m.states state).isSome

/-- Pointwise insertion modelling the Go map store
`m.states[state] = transitions`. -/
def setStateEntry (states : States) (state : String)
    (transitions : Transitions) : States :=
  fun k => if k = state then some transitions else states k

/-- The method `FSM.Add`: fails with the duplicate-state error when the
state exists, otherwise stores the table. -/
def Add (m : FSM) (state : String) (transitions : Transitions) :
    FSM × Option Err :=
  if existsState m state then
    (m, some (.duplicateState state))
  else
    ({ m with states := setStateEntry m.states state transitions }, none)

/-- The method `FSM.AddOrReplace`: unconditional store. -/
def AddOrReplace (m : FSM) (state : String) (transitions : Transitions) :
    FSM :=
  { m with states := setStateEntry m.states state transitions }

/-- The loop body of `FSM.AddOrMerge`'s existing-state branch: every key
of the incoming table is stored into the old one, so an incoming entry
wins on collision and other old entries survive. -/
def mergeT (old incoming : Transitions) : Transitions :=
  fun k =>
    match incoming k with
    | some v => some v
    | none => old k

/-- The method `FSM.AddOrMerge`: merges into an existing state's table,
or stores the incoming table when the state is absent. -/
def AddOrMerge (m : FSM) (state : String) (transitions : Transitions) :
    FSM :=
  match m.states state with
  | some old =>
      { m with states := setStateEntry m.states state (mergeT old transitions) }
  | none =>
      { m with states := setStateEntry m.states state transitions }

/-- Reduction of an integer to the signed 32-bit range, the semantics of
Go's wrapping `atomic.AddInt32` counter. -/
def wrap32 (x : Int) : Int :=
  (x + 2 ^ 31) % 2 ^ 32 - 2 ^ 31

/-- The Go map store `subscribers[key] = cb`: replaces any entry with
the same key, otherwise adds one. -/
def insertSub (subs : List (Int × Nat)) (key : Int) (cb : Nat) :
    List (Int × Nat) :=
  subs.filter (fun p => p.1 ≠ key) ++ [(key, cb)]

/-- The method `FSM.Subscribe`: allocates the next key with the wrapping
`int32` counter, registers the opaque callback `cb` under it, and
invokes the callback once with the current state (the `notify` effect in
the returned trace).  Returns the machine, the key the returned
cancellation closure captures, and the trace. -/
def Subscribe (m : FSM) (cb : Nat) : FSM × Int × List Eff :=
  let key := wrap32 (m.lastSubKey + 1)
  ({ m with lastSubKey := key
            subscribers := insertSub m.subscribers key cb },
   key, [.notify key cb m.current])

/-- The cancellation closure returned by `FSM.Subscribe`, applied to the
key it captured: `delete(subscribers, key)`. -/
def Unsubscribe (m : FSM) (key : Int) : FSM :=
  { m with subscribers := m.subscribers.filter (fun p => p.1 ≠ key) }

/-- The identifier of an action value whose Go type is one of the four
accepted by the `doLifecycle` switch apart from `nil`; `none` for every
other shape. -/
def hookId : Action → Option Nat
  | .afn i => some i
  | .ahookFSM i => some i
  | .ahookMeta i => some i
  | .ahookFSMMeta i => some i
  | _ => none

/-- Iterated subscription: the machine after `n` further `Subscribe`
calls (with an arbitrary opaque callback). -/
def subN (m : FSM) : Nat → FSM
  | 0 => m
  | n + 1 => (Subscribe (subN m n) 0).1

/-- The machine's current state is a key of its state table (the
invariant of §3 of the specification). -/
def currentInTable (m : FSM) : Prop :=
  (m.states m.current).isSome = true

/-! Concrete fixtures used by witnesses and counterexamples.  They are
transcriptions of the machines that the specification's §8 scenarios
and the repository examples build. -/

/-- Table of state `off` of the two-state switch: `toggle ↦ "on"`, plus
an `@exit` hook (opaque function 3). -/
def offTbl : Transitions := fun k =>
  if k = "toggle" then some (.aconst "on")
  else if k = "@exit" then some (.afn 3)
  else none

/-- Table of state `on` of the two-state switch: `toggle ↦ "off"`, plus
an `@enter` hook (opaque `func(Metadata)` 7) that records it ran. -/
def onTbl : Transitions := fun k =>
  if k = "toggle" then some (.aconst "off")
  else if k = "@enter" then some (.ahookMeta 7)
  else none

/-- The two-state switch table of §8. -/
def switchStates : States := fun s =>
  if s = "off" then some offTbl
  else if s = "on" then some onTbl
  else none

/-- The two-state switch machine, at `off` with no subscriber. -/
def switchM : FSM :=
  { current := "off", states := switchStates
    lastSubKey := 0, subscribers := [] }

/-- The two-state switch machine with one live subscriber (key 1,
opaque callback 42). -/
def switchSubM : FSM :=
  { switchM with lastSubKey := 1, subscribers := [(1, 42)] }

/-- Table of state `locked` of the turnstile example: `pay ↦ "unlocked"`
and `push` stored with a `nil` action. -/
def lockedTbl : Transitions := fun k =>
  if k = "pay" then some (.aconst "unlocked")
  else if k = "push" then some .anil
  else none

/-- The one-state turnstile machine fragment used for no-op
transitions: current `locked`. -/
def turnstileM : FSM :=
  { current := "locked"
    states := fun s => if s = "locked" then some lockedTbl else none
    lastSubKey := 0, subscribers := [] }

/-- A machine whose only action targets a state name absent from the
table: `a` with `go ↦ "b"` and no state `b`. -/
def danglingM : FSM :=
  { current := "a"
    states := fun s =>
      if s = "a" then some (fun k => if k = "go" then some (.aconst "b") else none)
      else none
    lastSubKey := 0, subscribers := [] }

/-- A machine whose current state's table stores the event `"@enter"`
with a `nil` action. -/
def nilEnterM : FSM :=
  { current := "a"
    states := fun s =>
      if s = "a" then some (fun k => if k = "@enter" then some .anil else none)
      else none
    lastSubKey := 0, subscribers := [] }

/-- A state table whose only state `a` stores under `"@enter"` a plain
string (a constant action value), a shape the lifecycle switch does not
accept. -/
def badEnterStates : States := fun s =>
  if s = "a" then some (fun k => if k = "@enter" then some (.aconst "x") else none)
  else none

/-- A machine whose current state's table stores under `boom` a value of
a type outside the closed action set. -/
def badActionM : FSM :=
  { current := "a"
    states := fun s =>
      if s = "a" then some (fun k => if k = "boom" then some (.aother 0) else none)
      else none
    lastSubKey := 0, subscribers := [] }

/-- The prior table of the merge scenario of §8: `next ↦ "b"`. -/
def mergeOldTbl : Transitions := fun k =>
  if k = "next" then some (.aconst "b") else none

/-- The incoming table of the merge scenario of §8:
`next ↦ "c", extra ↦ "d"`. -/
def mergeIncomingTbl : Transitions := fun k =>
  if k = "next" then some (.aconst "c")
  else if k = "extra" then some (.aconst "d")
  else none

/-- A machine holding the merge scenario's prior table under state
`s`. -/
def mergeM : FSM :=
  { current := "s"
    states := fun s => if s = "s" then some mergeOldTbl else none
    lastSubKey := 0, subscribers := [] }

/-- Table of state `off` exactly as in the §8 lifecycle-metadata
scenario: only `toggle ↦ "on"`, no lifecycle entry. -/
def plainOffTbl : Transitions := fun k =>
  if k = "toggle" then some (.aconst "on") else none

/-- The §8 lifecycle-metadata scenario's state table: `off` with only
`toggle ↦ "on"`, `on` with an `@enter` hook recording that it ran. -/
def scenarioStates : States := fun s =>
  if s = "off" then some plainOffTbl
  else if s = "on" then some onTbl
  else none

/-- The §8 lifecycle-metadata scenario machine, at `off`, no
subscriber. -/
def scenarioM : FSM :=
  { current := "off", states := scenarioStates
    lastSubKey := 0, subscribers := [] }

/-- A machine whose only transition (`go ↦ "b"`) must run an `@exit`
entry holding a plain string, a shape the lifecycle switch does not
accept. -/
def badExitM : FSM :=
  { current := "a"
    states := fun s =>
      if s = "a" then
        some (fun k =>
          if k = "go" then some (.aconst "b")
          else if k = "@exit" then some (.aconst "x")
          else none)
      else if s = "b" then some (fun _ => none)
      else none
    lastSubKey := 0, subscribers := [] }

/-- The result `Do switchM "toggle" []` evaluates to (checked by
`rfl` where used). -/
def switchToggleRes : DoResult :=
  ⟨{ switchM with current := "on" },
    [Eff.hook "@exit" 3 ⟨"off", "on", "toggle", []⟩,
     Eff.swap "off" "on",
     Eff.hook "@enter" 7 ⟨"off", "on", "toggle", []⟩],
    "on", none⟩

/-- The result `Do switchSubM "toggle" []` evaluates to (checked by
`rfl` where used): same transition, with the one live subscriber
notified after the swap. -/
def switchSubToggleRes : DoResult :=
  ⟨{ switchSubM with current := "on" },
    [Eff.hook "@exit" 3 ⟨"off", "on", "toggle", []⟩,
     Eff.swap "off" "on",
     Eff.notify 1 42 "on",
     Eff.hook "@enter" 7 ⟨"off", "on", "toggle", []⟩],
    "on", none⟩

/-! Helper lemmas shared by the claim theorems. -/

/-- A lifecycle dispatch on a stored value of a valid non-nil lifecycle
shape runs exactly that hook, with the metadata the engine passed. -/
theorem doLifecycle_eq_hook (m : FSM) (ev : String) (md : Metadata)
    (a : Action) (i : Nat)
    (ha : lookupA m ev = some a) (hi : hookId a = some i) :
    doLifecycle m ev md = some [.hook ev i md] := by
  cases a <;> simp [hookId] at hi <;>
    simp [doLifecycle, ha, hi]

/-- A lifecycle dispatch on an absent entry is a silent no-op. -/
theorem doLifecycle_eq_nil (m : FSM) (ev : String) (md : Metadata)
    (ha : lookupA m ev = none) :
    doLifecycle m ev md = some [] := by
  simp [doLifecycle, ha]

/-- Whatever a lifecycle dispatch produces is at most the single hook
effect of the dispatched event. -/
theorem doLifecycle_inv (m : FSM) (ev : String) (md : Metadata)
    (tr : List Eff) (h : doLifecycle m ev md = some tr) :
    tr = [] ∨ ∃ i, tr = [Eff.hook ev i md] := by
  unfold doLifecycle at h
  split at h <;> simp_all
  all_goals exact Or.inr ⟨_, h.symm⟩

/-- Whatever a non-lifecycle dispatch produces as a trace is at most one
`run` effect. -/
theorem doAction_inv (m : FSM) (e : String) (args : List Arg)
    (c : String) (tr : List Eff) (h : doAction m e args = some (c, tr)) :
    tr = [] ∨ ∃ i as, tr = [Eff.run i as] := by
  unfold doAction at h
  split at h <;> simp_all
  all_goals exact Or.inr ⟨_, _, h.2.symm⟩

/-- A dispatch that yields a candidate different from the current state
can only have found the event in the current state's table. -/
theorem lookupA_isSome_of_change (m : FSM) (e : String) (args : List Arg)
    (c : String) (tr : List Eff)
    (hda : doAction m e args = some (c, tr)) (hne : c ≠ m.current) :
    (lookupA m e).isSome := by
  unfold doAction at hda
  split at hda <;> simp_all

/-- Characterisation of `Do m e args` when it returns (does not panic):
exactly one of the two error paths, the unchanged path, or the full
transition path happened. -/
theorem Do_inv (m : FSM) (e : String) (args : List Arg) (r : DoResult)
    (h : Do m e args = some r) :
    (r = ⟨m, [], "", some .lifecycleIllegal⟩ ∧ (e = "@enter" ∨ e = "@exit"))
    ∨ (r = ⟨m, [], "", some (.invalidAction e m.current)⟩ ∧ lookupA m e = none)
    ∨ (∃ tr1, doAction m e args = some (m.current, tr1) ∧ r = ⟨m, tr1, m.current, none⟩)
    ∨ (∃ c tr1 tr2 tr4, doAction m e args = some (c, tr1) ∧ c ≠ m.current
        ∧ doLifecycle m "@exit" ⟨m.current, c, e, args⟩ = some tr2
        ∧ doLifecycle { m with current := c } "@enter" ⟨m.current, c, e, args⟩ = some tr4
        ∧ r = ⟨{ m with current := c },
            tr1 ++ tr2 ++ [.swap m.current c]
              ++ m.subscribers.map (fun p => Eff.notify p.1 p.2 c) ++ tr4,
            c, none⟩) := by
  unfold Do at h
  split at h
  · exact Or.inl ⟨(Option.some.injEq _ _ ▸ h).symm, by assumption⟩
  · split at h
    · exact Or.inr (Or.inl ⟨(Option.some.injEq _ _ ▸ h).symm, by assumption⟩)
    · split at h
      · exact absurd h (by simp)
      · rename_i c tr1 hda
        split at h
        · rename_i hne
          simp only [] at h
          split at h
          · exact absurd h (by simp)
          · rename_i tr2 hx
            split at h
            · exact absurd h (by simp)
            · rename_i tr4 hn
              exact Or.inr (Or.inr (Or.inr
                ⟨c, tr1, tr2, tr4, hda, hne, hx, hn,
                  (Option.some.injEq _ _ ▸ h).symm⟩))
        · rename_i hne
          rw [not_ne_iff] at hne
          subst hne
          exact Or.inr (Or.inr (Or.inl ⟨tr1, hda, (Option.some.injEq _ _ ▸ h).symm⟩))

/-- The `Do` equation on the direct-lifecycle error path. -/
theorem Do_lifecycle_err (m : FSM) (e : String) (args : List Arg)
    (he : e = "@enter" ∨ e = "@exit") :
    Do m e args = some ⟨m, [], "", some .lifecycleIllegal⟩ := by
  unfold Do
  rw [if_pos he]

/-- The `Do` equation on the unknown-event error path. -/
theorem Do_absent_err (m : FSM) (e : String) (args : List Arg)
    (he1 : e ≠ "@enter") (he2 : e ≠ "@exit") (hl : lookupA m e = none) :
    Do m e args = some ⟨m, [], "", some (.invalidAction e m.current)⟩ := by
  unfold Do
  rw [if_neg (by simp [he1, he2]), hl]

/-- The `Do` equation when the dispatched candidate equals the current
state: no hook, no swap, no notification. -/
theorem Do_noChange (m : FSM) (e : String) (args : List Arg) (tr1 : List Eff)
    (he1 : e ≠ "@enter") (he2 : e ≠ "@exit")
    (hl : (lookupA m e).isSome)
    (hda : doAction m e args = some (m.current, tr1)) :
    Do m e args = some ⟨m, tr1, m.current, none⟩ := by
  unfold Do
  rw [if_neg (by simp [he1, he2])]
  cases hs : lookupA m e with
  | none => simp [hs] at hl
  | some a => simp [hs, hda]

/-- The `Do` equation on the full transition path. -/
theorem Do_transition (m : FSM) (e : String) (args : List Arg)
    (c : String) (tr1 tr2 tr4 : List Eff)
    (he1 : e ≠ "@enter") (he2 : e ≠ "@exit")
    (hda : doAction m e args = some (c, tr1)) (hne : c ≠ m.current)
    (hx : doLifecycle m "@exit" ⟨m.current, c, e, args⟩ = some tr2)
    (hn : doLifecycle { m with current := c } "@enter"
        ⟨m.current, c, e, args⟩ = some tr4) :
    Do m e args = some ⟨{ m with current := c },
      tr1 ++ tr2 ++ [.swap m.current c]
        ++ m.subscribers.map (fun p => Eff.notify p.1 p.2 c) ++ tr4,
      c, none⟩ := by
  have hl := lookupA_isSome_of_change m e args c tr1 hda hne
  unfold Do
  rw [if_neg (by simp [he1, he2])]
  cases hs : lookupA m e with
  | none => simp [hs] at hl
  | some a => simp [hs, hda, hne, hx, hn]

/-- A subscriber key absent from the registry receives no notification
out of a notification pass. -/
theorem notify_not_mem_map (l : List (Int × Nat)) (key : Int) (cb : Nat)
    (s : String) (h : key ∉ l.map Prod.fst) :
    Eff.notify key cb s ∉ l.map (fun p => Eff.notify p.1 p.2 s) := by
  intro hm
  rcases List.mem_map.mp hm with ⟨p, hp, he⟩
  cases he
  exact h (List.mem_map.mpr ⟨p, hp, rfl⟩)

/-- A registered subscriber receives exactly one notification out of a
notification pass, provided registry keys are distinct (a Go map
guarantees this). -/
theorem count_notify_map_one (l : List (Int × Nat)) (key : Int) (cb : Nat)
    (s : String) (hnd : (l.map Prod.fst).Nodup) (hmem : (key, cb) ∈ l) :
    (l.map (fun p => Eff.notify p.1 p.2 s)).count (Eff.notify key cb s) = 1 := by
  induction l with
  | nil => cases hmem
  | cons hd tl ih =>
    rw [List.map_cons, List.nodup_cons] at hnd
    rcases List.mem_cons.mp hmem with h | h
    · have hk : key ∉ tl.map Prod.fst := by
        simpa [← h] using hnd.1
      have h0 : (tl.map (fun p => Eff.notify p.1 p.2 s)).count
          (Eff.notify key cb s) = 0 :=
        List.count_eq_zero.mpr (notify_not_mem_map tl key cb s hk)
      simp [← h, List.count_cons, h0]
    · have hk : hd.1 ≠ key := by
        intro hkey
        have h1 : key ∈ tl.map Prod.fst := List.mem_map.mpr ⟨(key, cb), h, rfl⟩
        exact hnd.1 (hkey ▸ h1)
      have := ih hnd.2 h
      simp [List.count_cons, this, hk]

/-- Wrapping commutes with incrementing: the counter behaves as the
count of `Subscribe` calls reduced to 32 bits. -/
theorem wrap32_add_one (x : Int) : wrap32 (wrap32 x + 1) = wrap32 (x + 1) := by
  unfold wrap32
  omega

/-- Within the nonnegative signed 32-bit range, wrapping is the
identity. -/
theorem wrap32_of_lt (n : Int) (h0 : 0 ≤ n) (h : n < 2 ^ 31) :
    wrap32 n = n := by
  unfold wrap32
  omega

/-- The key counter after `n` subscriptions on a machine whose counter
starts at zero. -/
theorem subN_lastSubKey (m : FSM) (h0 : m.lastSubKey = 0) (n : Nat) :
    (subN m n).lastSubKey = wrap32 n := by
  induction n with
  | zero =>
    have : wrap32 0 = 0 := by unfold wrap32; decide
    simp [subN, h0, this]
  | succ n ih =>
    have : (subN m (n + 1)).lastSubKey
        = wrap32 ((subN m n).lastSubKey + 1) := rfl
    rw [this, ih, wrap32_add_one]
    norm_num

/-! The claim theorems. -/

/-- C4: for every machine and every event name that is `"@enter"` or
`"@exit"` (invoked directly) or absent from the current state's
transition table, `Do` returns a non-nil error and has no side effect:
the machine (current state, state table, subscriber registry) is
returned unchanged and the trace is empty, so no action code, no hook
and no notification ran. -/
theorem claim_C4_error_paths (m : FSM) (e : String) (args : List Arg)
    (h : e = "@enter" ∨ e = "@exit" ∨ lookupA m e = none) :
    Do m e args = some ⟨m, [], "",
      some (if e = "@enter" ∨ e = "@exit" then .lifecycleIllegal
            else .invalidAction e m.current)⟩ := by
  by_cases hli : e = "@enter" ∨ e = "@exit"
  · rw [Do_lifecycle_err m e args hli, if_pos hli]
  · have hl : lookupA m e = none := by tauto
    push_neg at hli
    rw [Do_absent_err m e args hli.1 hli.2 hl, if_neg (by push_neg; exact hli)]

/-- Witness for C4 at the two-state switch and the event `"@enter"`. -/
theorem claim_C4_witness :
    Do switchM "@enter" [] = some ⟨switchM, [], "",
      some (if "@enter" = "@enter" ∨ "@enter" = "@exit" then .lifecycleIllegal
            else .invalidAction "@enter" switchM.current)⟩ :=
  claim_C4_error_paths switchM "@enter" [] (Or.inl rfl)

/-- C5 counterexample: the machine `nilEnterM` stores the event
`"@enter"` with a `nil` action in its current state's table, so the
claim's hypothesis holds for the event `"@enter"`, yet `Do "@enter"`
returns the empty string and a non-nil error instead of the current
state name `"a"` with no error. -/
theorem claim_C5_counterexample :
    lookupA nilEnterM "@enter" = some .anil
    ∧ nilEnterM.current = "a"
    ∧ Do nilEnterM "@enter" [] = some ⟨nilEnterM, [], "", some .lifecycleIllegal⟩
    ∧ "" ≠ "a" :=
  ⟨rfl, rfl, rfl, by decide⟩

/-- C5 (amended): for every machine whose current state's transition
table maps a non-lifecycle event `e` to `nil` or to a constant string
equal to the current state's own name, `Do e` returns that same state
name with no error, runs no `@exit` or `@enter` hook, and invokes no
subscriber callback (the trace is empty and the machine is returned
unchanged). -/
theorem claim_C5_noop (m : FSM) (e : String) (args : List Arg)
    (he1 : e ≠ "@enter") (he2 : e ≠ "@exit")
    (h : lookupA m e = some .anil ∨ lookupA m e = some (.aconst m.current)) :
    Do m e args = some ⟨m, [], m.current, none⟩ := by
  rcases h with h | h
  · exact Do_noChange m e args [] he1 he2 (by simp [h]) (by simp [doAction, h])
  · exact Do_noChange m e args [] he1 he2 (by simp [h]) (by simp [doAction, h])

/-- Witness for C5 at the turnstile fragment, whose `locked` state
stores `push` with a `nil` action. -/
theorem claim_C5_witness :
    Do turnstileM "push" [] = some ⟨turnstileM, [], turnstileM.current, none⟩ :=
  claim_C5_noop turnstileM "push" [] (by decide) (by decide) (Or.inl rfl)

/-- C2 counterexample: at the two-state switch (current state `off`)
the failing call `Do "@enter"` returns the string `""`, not the
machine's current state name `"off"`. -/
theorem claim_C2_counterexample :
    (Do switchM "@enter" []).map (fun r => (r.ret, r.fsm.current, r.err.isSome))
      = some ("", "off", true)
    ∧ "" ≠ "off" :=
  ⟨rfl, by decide⟩

/-- C2 (amended): whenever `Do` returns (does not panic), a `nil` error
comes with the machine's current state name at return time, and a
non-nil error (a lifecycle event name invoked directly, or an event
absent from the current state's transition table) comes with the empty
string. -/
theorem claim_C2_return_string (m : FSM) (e : String) (args : List Arg)
    (r : DoResult) (h : Do m e args = some r) :
    (r.err = none → r.ret = r.fsm.current)
    ∧ (r.err.isSome = true → r.ret = "") := by
  rcases Do_inv m e args r h with ⟨hr, _⟩ | ⟨hr, _⟩ | ⟨tr1, _, hr⟩
    | ⟨c, tr1, tr2, tr4, _, _, _, _, hr⟩ <;> subst hr <;> simp

/-- Witness for C2 at the successful call `Do switchM "toggle"`. -/
theorem claim_C2_witness :
    switchToggleRes.ret = switchToggleRes.fsm.current :=
  (claim_C2_return_string switchM "toggle" [] switchToggleRes rfl).1 rfl

/-- C7: dispatch of an event against the current state's transition
table obeys the case analysis on the stored action value: `nil` yields
the current state with no side effect; a constant string yields that
string with no code run; a `func()` or `func(...interface{})` with no
return value is executed (the variadic form receiving the caller's
arguments) and yields the current state; a `func() string` or
`func(...interface{}) string` is executed and yields its returned name;
a value of any other type ends in a panic. -/
theorem claim_C7_dispatch (m : FSM) (e : String) (args : List Arg) :
    (lookupA m e = some .anil → doAction m e args = some (m.current, []))
    ∧ (∀ s, lookupA m e = some (.aconst s) → doAction m e args = some (s, []))
    ∧ (∀ i, lookupA m e = some (.afn i) →
        doAction m e args = some (m.current, [.run i []]))
    ∧ (∀ i, lookupA m e = some (.afnArgs i) →
        doAction m e args = some (m.current, [.run i args]))
    ∧ (∀ i r, lookupA m e = some (.afnRet i r) →
        doAction m e args = some (r, [.run i []]))
    ∧ (∀ i f, lookupA m e = some (.afnArgsRet i f) →
        doAction m e args = some (f args, [.run i args]))
    ∧ (∀ i, lookupA m e = some (.ahookFSM i) → doAction m e args = none)
    ∧ (∀ i, lookupA m e = some (.ahookMeta i) → doAction m e args = none)
    ∧ (∀ i, lookupA m e = some (.ahookFSMMeta i) → doAction m e args = none)
    ∧ (∀ t, lookupA m e = some (.aother t) → doAction m e args = none) := by
  refine ⟨?_, ?_, ?_, ?_, ?_, ?_, ?_, ?_, ?_, ?_⟩ <;>
    intros <;> simp [doAction, *]

/-- Witness for C7: the constant case at the switch and the
invalid-type panic case at `badActionM`. -/
theorem claim_C7_witness :
    doAction switchM "toggle" [] = some ("on", [])
    ∧ doAction badActionM "boom" [] = none :=
  ⟨(claim_C7_dispatch switchM "toggle" []).2.1 "on" rfl,
   (claim_C7_dispatch badActionM "boom" []).2.2.2.2.2.2.2.2.2 0 rfl⟩

/-- C1 counterexample: from `badExitM`, `Do "go"` dispatches the
candidate `b`, different from the current state `a`, so the claim
asserts the transition runs and `Do` returns `b` with no error — but
the old state's `@exit` entry holds a plain string, on which the
lifecycle dispatch panics, so the call never returns. -/
theorem claim_C1_counterexample :
    doAction badExitM "go" [] = some ("b", [])
    ∧ badExitM.current = "a"
    ∧ "b" ≠ "a"
    ∧ Do badExitM "go" [] = none :=
  ⟨rfl, rfl, by decide, rfl⟩

/-- C1 (amended): for every non-lifecycle `Do` whose dispatched
candidate `c` differs from the current state, whenever the two
lifecycle dispatches involved return (the old state's `@exit` entry
and the new state's `@enter` entry are each absent, `nil`, or of valid
lifecycle shape — any other stored type panics instead, per the
counterexample), the transition is performed in this exact order: the
Metadata record (From: old state, To: candidate, Event, Args) is
constructed; the old state's `@exit` hook, if present, runs with it
(`tr2`); the current state is swapped to the candidate; every live
subscriber is invoked with the new state name; the new state's
`@enter` hook, if present, runs with the same Metadata (`tr4`) —
exactly once, as `tr4` holds at most the one `@enter` hook effect and
no `@enter` hook effect occurs anywhere else in the trace; and `Do`
returns the new state name with no error. -/
theorem claim_C1_transition_order (m : FSM) (e : String) (args : List Arg)
    (c : String) (tr1 tr2 tr4 : List Eff)
    (he1 : e ≠ "@enter") (he2 : e ≠ "@exit")
    (hda : doAction m e args = some (c, tr1)) (hne : c ≠ m.current)
    (hx : doLifecycle m "@exit" ⟨m.current, c, e, args⟩ = some tr2)
    (hn : doLifecycle { m with current := c } "@enter"
        ⟨m.current, c, e, args⟩ = some tr4) :
    Do m e args = some ⟨{ m with current := c },
      tr1 ++ tr2 ++ [Eff.swap m.current c]
        ++ m.subscribers.map (fun p => Eff.notify p.1 p.2 c) ++ tr4,
      c, none⟩
    ∧ (tr4 = [] ∨ ∃ j, tr4 = [Eff.hook "@enter" j ⟨m.current, c, e, args⟩])
    ∧ (∀ j, (tr1 ++ tr2 ++ [Eff.swap m.current c]
        ++ m.subscribers.map (fun p => Eff.notify p.1 p.2 c) ++ tr4).count
          (Eff.hook "@enter" j ⟨m.current, c, e, args⟩)
        = tr4.count (Eff.hook "@enter" j ⟨m.current, c, e, args⟩))
    ∧ ∀ p ∈ m.subscribers,
        Eff.notify p.1 p.2 c
          ∈ tr1 ++ tr2 ++ [Eff.swap m.current c]
            ++ m.subscribers.map (fun q => Eff.notify q.1 q.2 c) ++ tr4 := by
  refine ⟨Do_transition m e args c tr1 tr2 tr4 he1 he2 hda hne hx hn,
    doLifecycle_inv _ _ _ _ hn, ?_, ?_⟩
  · intro j
    have h1 : tr1.count (Eff.hook "@enter" j ⟨m.current, c, e, args⟩) = 0 := by
      rcases doAction_inv m e args c tr1 hda with h | ⟨i', as, h⟩ <;>
        subst h <;> simp
    have h2 : tr2.count (Eff.hook "@enter" j ⟨m.current, c, e, args⟩) = 0 := by
      rcases doLifecycle_inv _ _ _ _ hx with h | ⟨i', h⟩ <;> subst h
      · simp
      · refine List.count_eq_zero.mpr ?_
        intro hmem
        rw [List.mem_singleton] at hmem
        injection hmem with hev _
        exact absurd hev (by decide)
    have h3 : ([Eff.swap m.current c]).count
        (Eff.hook "@enter" j ⟨m.current, c, e, args⟩) = 0 :=
      List.count_eq_zero.mpr (by simp)
    have h4 : (m.subscribers.map (fun p => Eff.notify p.1 p.2 c)).count
        (Eff.hook "@enter" j ⟨m.current, c, e, args⟩) = 0 :=
      List.count_eq_zero.mpr (by simp [List.mem_map])
    simp [List.count_append, h1, h2, h3, h4]
  · intro p hp
    simp only [List.mem_append, List.mem_map]
    exact Or.inl (Or.inr ⟨p, hp, rfl⟩)

/-- Witness for C1: the lifecycle-metadata scenario of §8 itself —
state `off` holds only `toggle ↦ "on"` (no `@exit` entry), state `on`
holds the `@enter` hook 7; `Do "toggle"` swaps and runs that hook once
with Metadata (From `off`, To `on`, Event `toggle`, Args empty). -/
theorem claim_C1_witness :
    Do scenarioM "toggle" [] = some ⟨{ scenarioM with current := "on" },
      [Eff.swap "off" "on",
       Eff.hook "@enter" 7 ⟨"off", "on", "toggle", []⟩],
      "on", none⟩ :=
  (claim_C1_transition_order scenarioM "toggle" [] "on" [] []
    [Eff.hook "@enter" 7 ⟨"off", "on", "toggle", []⟩]
    (by decide) (by decide) rfl (by decide) rfl rfl).1

/-- C6 counterexample: the state table `badEnterStates` contains the
initial state `a`, whose `@enter` entry holds a plain string; the
constructor panics instead of returning a machine. -/
theorem claim_C6_counterexample :
    (badEnterStates "a").isSome = true ∧ Machine "a" badEnterStates = none :=
  ⟨rfl, rfl⟩

/-- C6 (amended): `Machine(initialState, states)` fails fatally
(panics) when `initialState` is not a key of `states`; otherwise,
provided the initial state's `@enter` entry is absent, `nil`, or of a
valid lifecycle shape, it returns a machine whose `State()` equals
`initialState`, and during construction only the initial state's
`@enter` hook runs, with a degenerate Metadata (From empty, To the
initial state, Event empty, Args empty): no `@exit` hook runs and no
subscriber is notified (the registry starts empty). -/
theorem claim_C6_machine (initialState : String) (states : States) :
    (states initialState = none → Machine initialState states = none)
    ∧ (∀ t, states initialState = some t →
        ((t "@enter" = none ∨ t "@enter" = some .anil) →
          Machine initialState states
            = some ({ current := initialState, states := states,
                      lastSubKey := 0, subscribers := [] }, []))
        ∧ (∀ a k, t "@enter" = some a → hookId a = some k →
            Machine initialState states
              = some ({ current := initialState, states := states,
                        lastSubKey := 0, subscribers := [] },
                  [Eff.hook "@enter" k ⟨"", initialState, "", []⟩]))) := by
  constructor
  · intro h
    simp [Machine, h]
  · intro t ht
    constructor
    · rintro (h | h) <;> simp [Machine, ht, doLifecycle, lookupA, h]
    · intro a k ha hk
      have hla : lookupA (⟨initialState, states, 0, []⟩ : FSM) "@enter"
          = some a := by
        simp [lookupA, ht, ha]
      have hdl := doLifecycle_eq_hook _ "@enter"
        ⟨"", initialState, "", []⟩ a k hla hk
      simp [Machine, ht, hdl]

/-- Witness for C6: constructing the switch at `off`, whose table has
no `@enter` entry. -/
theorem claim_C6_witness :
    Machine "off" switchStates
      = some ({ current := "off", states := switchStates,
                lastSubKey := 0, subscribers := [] }, []) :=
  ((claim_C6_machine "off" switchStates).2 offTbl rfl).1 (Or.inl rfl)

/-- C8: `AddOrMerge` on an existing state updates its table key-by-key
with the incoming entries, the incoming table winning on every
colliding key and every non-colliding prior entry preserved; on an
absent state it installs the incoming table exactly as `AddOrReplace`
would. -/
theorem claim_C8_merge (m : FSM) (s : String) (t : Transitions) :
    (∀ old, m.states s = some old →
      (AddOrMerge m s t).states s = some (mergeT old t)
      ∧ (∀ k v, t k = some v → mergeT old t k = some v)
      ∧ (∀ k, t k = none → mergeT old t k = old k))
    ∧ (m.states s = none → AddOrMerge m s t = AddOrReplace m s t) := by
  constructor
  · intro old hold
    refine ⟨?_, ?_, ?_⟩
    · simp [AddOrMerge, hold, setStateEntry]
    · intro k v hk
      simp [mergeT, hk]
    · intro k hk
      simp [mergeT, hk]
  · intro h
    simp [AddOrMerge, h, AddOrReplace]

/-- Witness for C8: the merge scenario of §8, `{next: "b"}` merged with
`{next: "c", extra: "d"}`. -/
theorem claim_C8_witness :
    (AddOrMerge mergeM "s" mergeIncomingTbl).states "s"
      = some (mergeT mergeOldTbl mergeIncomingTbl)
    ∧ mergeT mergeOldTbl mergeIncomingTbl "next" = some (.aconst "c")
    ∧ mergeT mergeOldTbl mergeIncomingTbl "extra" = some (.aconst "d") := by
  have h := (claim_C8_merge mergeM "s" mergeIncomingTbl).1 mergeOldTbl rfl
  exact ⟨h.1, h.2.1 "next" _ rfl, h.2.1 "extra" _ rfl⟩

/-- C10: `Add`, `AddOrReplace` and `AddOrMerge` leave the current
state, the key counter and the subscriber registry unchanged and touch
no state-table entry other than the one for `s`; `Add` modifies nothing
at all when it returns the duplicate-state error.  (As in the source,
none of the three invokes any action code, hook or subscriber: they
produce no effect trace at all.) -/
theorem claim_C10_mutator_frame (m : FSM) (s : String) (t : Transitions) :
    ((Add m s t).1.current = m.current
      ∧ (Add m s t).1.lastSubKey = m.lastSubKey
      ∧ (Add m s t).1.subscribers = m.subscribers
      ∧ (∀ k, k ≠ s → (Add m s t).1.states k = m.states k)
      ∧ ((Add m s t).2.isSome = true → (Add m s t).1 = m))
    ∧ ((AddOrReplace m s t).current = m.current
      ∧ (AddOrReplace m s t).lastSubKey = m.lastSubKey
      ∧ (AddOrReplace m s t).subscribers = m.subscribers
      ∧ ∀ k, k ≠ s → (AddOrReplace m s t).states k = m.states k)
    ∧ ((AddOrMerge m s t).current = m.current
      ∧ (AddOrMerge m s t).lastSubKey = m.lastSubKey
      ∧ (AddOrMerge m s t).subscribers = m.subscribers
      ∧ ∀ k, k ≠ s → (AddOrMerge m s t).states k = m.states k) := by
  refine ⟨⟨?_, ?_, ?_, ?_, ?_⟩, ⟨?_, ?_, ?_, ?_⟩, ⟨?_, ?_, ?_, ?_⟩⟩
  · unfold Add
    split <;> rfl
  · unfold Add
    split <;> rfl
  · unfold Add
    split <;> rfl
  · intro k hk
    unfold Add
    split
    · rfl
    · simp [setStateEntry, hk]
  · intro h
    by_cases hex : existsState m s
    · simp [Add, hex]
    · simp [Add, hex] at h
  · rfl
  · rfl
  · rfl
  · intro k hk
    simp [AddOrReplace, setStateEntry, hk]
  · unfold AddOrMerge
    split <;> rfl
  · unfold AddOrMerge
    split <;> rfl
  · unfold AddOrMerge
    split <;> rfl
  · intro k hk
    unfold AddOrMerge
    split <;> simp [setStateEntry, hk]

/-- Witness for C10: the duplicate-`Add` no-op and one untouched key of
an `AddOrReplace`. -/
theorem claim_C10_witness :
    (Add mergeM "s" mergeIncomingTbl).1 = mergeM
    ∧ (AddOrReplace mergeM "q" mergeIncomingTbl).states "s"
        = mergeM.states "s" :=
  ⟨(claim_C10_mutator_frame mergeM "s" mergeIncomingTbl).1.2.2.2.2 rfl,
   (claim_C10_mutator_frame mergeM "q" mergeIncomingTbl).2.1.2.2.2 "s"
     (by decide)⟩

/-- C3 counterexample: from `danglingM` (state table containing only
`a`, with `go ↦ "b"` and no state `b`), `Do "go"` commits a transition
to `b`: afterwards the current state name is not a key of the state
table. -/
theorem claim_C3_counterexample :
    (Do danglingM "go" []).map
        (fun r => (r.fsm.current, (r.fsm.states r.fsm.current).isSome))
      = some ("b", false) := rfl

/-- C3 (amended): `Add`, `AddOrReplace`, `AddOrMerge` and `Subscribe`
preserve the invariant that the current state name is a key of the
state table; `Do` never changes the table and only moves the current
state to the dispatched candidate, so it preserves the invariant
exactly when the candidate it commits is a table key — transition
targets are not validated, and an action yielding a name outside the
table breaks the invariant. -/
theorem claim_C3_invariant (m : FSM) :
    (∀ s t, currentInTable m → currentInTable (Add m s t).1)
    ∧ (∀ s t, currentInTable m → currentInTable (AddOrReplace m s t))
    ∧ (∀ s t, currentInTable m → currentInTable (AddOrMerge m s t))
    ∧ (∀ cb, currentInTable m → currentInTable (Subscribe m cb).1)
    ∧ (∀ e args r, Do m e args = some r → r.fsm.states = m.states)
    ∧ (∀ e args r, Do m e args = some r → currentInTable m →
        (m.states r.fsm.current).isSome = true → currentInTable r.fsm) := by
  refine ⟨?_, ?_, ?_, ?_, ?_, ?_⟩
  · intro s t h
    unfold Add
    split
    · exact h
    · unfold currentInTable at *
      by_cases hc : m.current = s <;> simp [setStateEntry, hc, h]
  · intro s t h
    unfold currentInTable AddOrReplace at *
    by_cases hc : m.current = s <;> simp [setStateEntry, hc, h]
  · intro s t h
    unfold currentInTable AddOrMerge at *
    split <;> by_cases hc : m.current = s <;> simp [setStateEntry, hc, h]
  · intro cb h
    exact h
  · intro e args r h
    rcases Do_inv m e args r h with ⟨hr, _⟩ | ⟨hr, _⟩ | ⟨tr1, _, hr⟩
      | ⟨c, tr1, tr2, tr4, _, _, _, _, hr⟩ <;> subst hr <;> rfl
  · intro e args r h hm hin
    rcases Do_inv m e args r h with ⟨hr, _⟩ | ⟨hr, _⟩ | ⟨tr1, _, hr⟩
      | ⟨c, tr1, tr2, tr4, _, _, _, _, hr⟩ <;> subst hr <;>
      simpa [currentInTable] using hin

/-- Witness for C3 at a mutator call on the switch and the committed
`toggle` transition (whose target `on` is a table key). -/
theorem claim_C3_witness :
    currentInTable (AddOrReplace switchM "c" lockedTbl)
    ∧ currentInTable switchToggleRes.fsm :=
  ⟨(claim_C3_invariant switchM).2.1 "c" lockedTbl rfl,
   (claim_C3_invariant switchM).2.2.2.2.2 "toggle" [] switchToggleRes
     rfl rfl rfl⟩

/-- C9 counterexample: the subscription key counter is a wrapping
32-bit integer, so the keys allocated over a machine's lifetime are not
monotonically increasing: on a fresh machine the (2^31 − 1)-th
subscription receives key 2^31 − 1 while the next one receives the
negative key −2^31. -/
theorem claim_C9_counterexample :
    (subN switchM (2 ^ 31 - 1)).lastSubKey = 2 ^ 31 - 1
    ∧ (subN switchM (2 ^ 31)).lastSubKey = -(2 ^ 31)
    ∧ (-(2 ^ 31) : Int) < 2 ^ 31 - 1 := by
  have h1 := subN_lastSubKey switchM rfl (2 ^ 31 - 1)
  have h2 := subN_lastSubKey switchM rfl (2 ^ 31)
  refine ⟨?_, ?_, by norm_num⟩
  · rw [h1]
    unfold wrap32
    norm_num
  · rw [h2]
    unfold wrap32
    norm_num

/-- C9 (amended): `Subscribe` registers the callback under the key
obtained by incrementing the machine's 32-bit counter — keys are
unique and monotonically increasing as long as fewer than 2^31
subscriptions are ever made on the machine (the counter wraps beyond
that) — invokes the callback exactly once synchronously with the
current state, and returns the key for cancellation; every transition
committed while the subscription is live delivers exactly one
notification with the new state name; cancellation is idempotent, and
after it no further notification is delivered to that subscription's
key. -/
theorem claim_C9_subscribe (m : FSM) :
    (∀ cb,
      (Subscribe m cb).2.1 = wrap32 (m.lastSubKey + 1)
      ∧ ((Subscribe m cb).2.1, cb) ∈ (Subscribe m cb).1.subscribers
      ∧ (Subscribe m cb).2.2 = [Eff.notify (Subscribe m cb).2.1 cb m.current])
    ∧ (∀ a b : Nat, m.lastSubKey = 0 → a < b → (b : Int) < 2 ^ 31 →
        (subN m a).lastSubKey < (subN m b).lastSubKey)
    ∧ (∀ e args r key cb, (m.subscribers.map Prod.fst).Nodup →
        (key, cb) ∈ m.subscribers → Do m e args = some r →
        r.err = none → r.fsm.current ≠ m.current →
        r.trace.count (Eff.notify key cb r.fsm.current) = 1)
    ∧ (∀ key, Unsubscribe (Unsubscribe m key) key = Unsubscribe m key)
    ∧ (∀ key e args r cb s, Do (Unsubscribe m key) e args = some r →
        Eff.notify key cb s ∉ r.trace) := by
  refine ⟨?_, ?_, ?_, ?_, ?_⟩
  · intro cb
    refine ⟨rfl, ?_, rfl⟩
    simp [Subscribe, insertSub]
  · intro a b h0 hab hb
    rw [subN_lastSubKey m h0 a, subN_lastSubKey m h0 b,
      wrap32_of_lt _ (Int.natCast_nonneg a)
        (lt_trans (by exact_mod_cast hab) hb),
      wrap32_of_lt _ (Int.natCast_nonneg b) hb]
    exact_mod_cast hab
  · intro e args r key cb hnd hmem h herr hne
    rcases Do_inv m e args r h with ⟨hr, _⟩ | ⟨hr, _⟩ | ⟨tr1, _, hr⟩
      | ⟨c, tr1, tr2, tr4, hda, hcne, hx, hn, hr⟩
    · subst hr; simp at herr
    · subst hr; simp at herr
    · subst hr; exact absurd rfl hne
    · subst hr
      have h1 : tr1.count (Eff.notify key cb c) = 0 := by
        rcases doAction_inv m e args c tr1 hda with h' | ⟨i', as, h'⟩ <;>
          subst h' <;> simp
      have h2 : tr2.count (Eff.notify key cb c) = 0 := by
        rcases doLifecycle_inv _ _ _ _ hx with h' | ⟨i', h'⟩ <;>
          subst h' <;> simp
      have h3 : ([Eff.swap m.current c]).count (Eff.notify key cb c) = 0 :=
        List.count_eq_zero.mpr (by simp)
      have h4 : tr4.count (Eff.notify key cb c) = 0 := by
        rcases doLifecycle_inv _ _ _ _ hn with h' | ⟨i', h'⟩ <;>
          subst h' <;> simp
      have h5 := count_notify_map_one m.subscribers key cb c hnd hmem
      simp [List.count_append, h1, h2, h3, h4, h5]
  · intro key
    unfold Unsubscribe
    congr 1
    exact List.filter_eq_self.mpr fun a ha => (List.mem_filter.mp ha).2
  · intro key e args r cb s h
    rcases Do_inv (Unsubscribe m key) e args r h with ⟨hr, _⟩ | ⟨hr, _⟩
      | ⟨tr1, hda, hr⟩ | ⟨c, tr1, tr2, tr4, hda, hcne, hx, hn, hr⟩
    · subst hr; simp
    · subst hr; simp
    · subst hr
      rcases doAction_inv _ _ _ _ _ hda with h' | ⟨i', as, h'⟩ <;>
        subst h' <;> simp
    · subst hr
      intro hmem
      simp only [List.mem_append] at hmem
      rcases hmem with ((((hmem | hmem) | hmem) | hmem) | hmem)
      · rcases doAction_inv _ _ _ _ _ hda with h' | ⟨i', as, h'⟩ <;>
          subst h' <;> simp at hmem
      · rcases doLifecycle_inv _ _ _ _ hx with h' | ⟨i', h'⟩ <;>
          subst h' <;> simp at hmem
      · simp at hmem
      · rcases List.mem_map.mp hmem with ⟨p, hp, heq⟩
        injection heq with hk _ _
        have hpf := List.mem_filter.mp hp
        have hne' : p.1 ≠ key := by simpa using hpf.2
        exact hne' hk
      · rcases doLifecycle_inv _ _ _ _ hn with h' | ⟨i', h'⟩ <;>
          subst h' <;> simp at hmem

/-- Witness for C9: the first subscription on the switch, the delivery
of the committed `toggle` transition to the live subscriber of
`switchSubM`, and an idempotent cancellation. -/
theorem claim_C9_witness :
    ((Subscribe switchM 42).2.1, 42) ∈ (Subscribe switchM 42).1.subscribers
    ∧ switchSubToggleRes.trace.count (Eff.notify 1 42 "on") = 1
    ∧ Unsubscribe (Unsubscribe switchSubM 1) 1 = Unsubscribe switchSubM 1 :=
  ⟨((claim_C9_subscribe switchM).1 42).2.1,
   (claim_C9_subscribe switchSubM).2.2.1 "toggle" [] switchSubToggleRes 1 42
     (by decide) (by decide) rfl rfl (by decide),
   (claim_C9_subscribe switchSubM).2.2.2.1 1⟩

end Fine
